import Mathlib

set_option maxRecDepth 10000

/-!
Formal model of the scheduling and persistence core of the OS-Alarm-Reminder
backend: the data model (backend/models.py), the JSON snapshot store
(backend/storage.py), the alarm scheduler (backend/alarm_manager.py) and the
task reminder scheduler (backend/task_manager.py).  Machine integers are
modelled as Nat / Int, wall-clock instants as integer microseconds (the
resolution of Python datetime), and fallible parsing as Option.
-/

namespace Chronos

/-- Alarm record (models.py, class Alarm).  The source field repeat is named
repeatDays here because repeat is a reserved word in Lean. -/
structure Alarm where
  id : String
  time : String
  label : String
  sound : String
  repeatDays : List String
  active : Bool
  ringing : Bool
deriving DecidableEq

/-- Task record (models.py, class Task). -/
structure Task where
  id : String
  title : String
  date : String
  time : String
  reminder : Int
  done : Bool
  color : String
  reminder_fired : Bool
deriving DecidableEq

/-- Python dict assignment d[k] = v on an insertion-ordered association list:
an existing key keeps its position and receives the new value, a new key is
appended at the end. -/
def dictInsert {β : Type} (d : List (String × β)) (k : String) (v : β) :
    List (String × β) :=
  if d.any (fun p => p.1 == k) then
    d.map (fun p => if p.1 == k then (k, v) else p)
  else d ++ [(k, v)]

/-- Python dict.get(k, v0) on an association list. -/
def dictGetD {β : Type} (d : List (String × β)) (k : String) (v0 : β) : β :=
  match d.find? (fun p => p.1 == k) with
  | some p => p.2
  | none => v0

/-- One persisted JSON document as storage.py sees it: the backing file can be
missing, hold text that is not valid JSON, or hold a JSON object whose fields
are arrays of records. -/
inductive StoredFile (ρ : Type) where
  | absent
  | corrupt
  | doc (fields : List (String × List ρ))

/-- storage._read: returns the empty object when the file does not exist or
its content fails JSON decoding (the JSONDecodeError branch), otherwise the
decoded object. -/
def readJson {ρ : Type} : StoredFile ρ → List (String × List ρ)
  | .absent => []
  | .corrupt => []
  | .doc fields => fields

/-- storage.load_alarms: data.get("alarms", []). -/
def load_alarms (f : StoredFile Alarm) : List Alarm :=
  dictGetD (readJson f) "alarms" []

/-- storage.save_alarms: _write(_ALARMS_FILE, the object with one field). -/
def save_alarms (alarms : List Alarm) : StoredFile Alarm :=
  .doc [("alarms", alarms)]

/-- storage.load_tasks: data.get("tasks", []). -/
def load_tasks (f : StoredFile Task) : List Task :=
  dictGetD (readJson f) "tasks" []

/-- storage.save_tasks: _write(_TASKS_FILE, the object with one field). -/
def save_tasks (tasks : List Task) : StoredFile Task :=
  .doc [("tasks", tasks)]

/-- The loop body shared by AlarmManager._load and TaskManager._load: insert
each row into the manager dict keyed by id, transforming the row with f. -/
def pyDictFromRows {α β : Type} (key : α → String) (f : α → β) (rows : List α) :
    List (String × β) :=
  rows.foldl (fun d a => dictInsert d (key a) (f a)) []

/-- AlarmManager._load on the raw rows: build Alarm records, force
ringing = false on every loaded alarm, key them by id; the resulting
collection is the dict value list in insertion order. -/
def loadAlarmRows (rows : List Alarm) : List Alarm :=
  (pyDictFromRows (fun a => a.id) (fun a => { a with ringing := false }) rows).map Prod.snd

/-- TaskManager._load on the raw rows: build Task records unchanged and key
them by id. -/
def loadTaskRows (rows : List Task) : List Task :=
  (pyDictFromRows (fun t => t.id) (fun t => t) rows).map Prod.snd

/-- AlarmManager in-memory state plus the persisted alarms file: alarms is the
dict value list, file the records last written by _persist, writes counts the
calls to storage.save_alarms. -/
structure AMState where
  alarms : List Alarm
  file : List Alarm
  writes : Nat
deriving DecidableEq

/-- AlarmManager._persist: model_dump every alarm in the collection, as is,
and hand the snapshot to storage.save_alarms. -/
def persistAlarms (s : AMState) : AMState :=
  { s with file := s.alarms, writes := s.writes + 1 }

/-- AlarmManager._fire on the alarm with the given id: set ringing = true
under the lock, invoke the ring callback (exceptions discarded), then
_persist the whole collection. -/
def fireAlarm (s : AMState) (a_id : String) : AMState :=
  persistAlarms
    { s with
      alarms := s.alarms.map (fun a => if a.id == a_id then { a with ringing := true } else a) }

/-- AlarmManager.delete: if the id is absent return False before any
persistence call, otherwise remove the entry and _persist. -/
def deleteAlarm (s : AMState) (alarm_id : String) : Bool × AMState :=
  if s.alarms.any (fun a => a.id == alarm_id) then
    (true, persistAlarms { s with alarms := s.alarms.filter (fun a => !(a.id == alarm_id)) })
  else (false, s)

/-- The local wall clock sampled at the top of one _tick_loop iteration. -/
structure Clock where
  hour : Nat
  minute : Nat
  second : Nat
  weekday : Fin 7

/-- Python f-string {n:02d} for a nonnegative value. -/
def fmt2 (n : Nat) : String :=
  if n < 10 then "0" ++ toString n else toString n

/-- The current "HH:MM" string built in _tick_loop. -/
def timeStr (h m : Nat) : String := fmt2 h ++ ":" ++ fmt2 m

/-- _WEEKDAY_NAMES of alarm_manager.py. -/
def weekdayNames : List String := ["Mon", "Tue", "Wed", "Thu", "Fri", "Sat", "Sun"]

/-- _WEEKDAY_NAMES[now.weekday()]. -/
def weekdayName (w : Fin 7) : String :=
  weekdayNames.get ⟨w.1, w.isLt⟩

/-- The per-alarm fire decision of AlarmManager._tick_loop: the scan runs only
when the sampled second is 0; an alarm is skipped when inactive or already
ringing, when its time string differs from the current "HH:MM", or when its
repeat list is nonempty and misses the current weekday tag. -/
def alarmFireCond (c : Clock) (a : Alarm) : Bool :=
  if c.second = 0 then
    if a.active = false ∨ a.ringing = true then false
    else if ¬ a.time = timeStr c.hour c.minute then false
    else if ¬ a.repeatDays = [] ∧ ¬ weekdayName c.weekday ∈ a.repeatDays then false
    else true
  else false

/-- One iteration of _tick_loop over the candidate snapshot: every alarm that
passes alarmFireCond is fired, which sets its ringing field to true. -/
def tickOnce (c : Clock) (alarms : List Alarm) : List Alarm :=
  alarms.map (fun a => if alarmFireCond c a then { a with ringing := true } else a)

/-- Decimal digit value of a character, as int(c) on one character. -/
def digitVal (c : Char) : Option Nat :=
  if c.isDigit then some (c.toNat - 48) else none

/-- Two-digit decimal field of an ISO string. -/
def parse2 (a b : Char) : Option Nat :=
  match digitVal a, digitVal b with
  | some x, some y => some (x * 10 + y)
  | _, _ => none

/-- Four-digit decimal field of an ISO string. -/
def parse4 (a b c d : Char) : Option Nat :=
  match digitVal a, digitVal b, digitVal c, digitVal d with
  | some x1, some x2, some x3, some x4 => some (((x1 * 10 + x2) * 10 + x3) * 10 + x4)
  | _, _, _, _ => none

/-- Gregorian leap-year rule used by the Python datetime module. -/
def isLeap (y : Nat) : Bool :=
  y % 4 == 0 && (!(y % 100 == 0) || y % 400 == 0)

/-- Length of a month in the proleptic Gregorian calendar. -/
def daysInMonth (y m : Nat) : Nat :=
  if m == 2 then (if isLeap y then 29 else 28)
  else if m == 4 || m == 6 || m == 9 || m == 11 then 30
  else 31

/-- Days in year y before the first day of month m. -/
def daysBeforeMonth (y m : Nat) : Nat :=
  (List.range (m - 1)).foldl (fun acc i => acc + daysInMonth y (i + 1)) 0

/-- date.toordinal of the Python datetime module: day number of a proleptic
Gregorian date, with 0001-01-01 mapped to 1. -/
def toordinal (y m d : Nat) : Nat :=
  (y - 1) * 365 + (y - 1) / 4 - (y - 1) / 100 + (y - 1) / 400 + daysBeforeMonth y m + d

/-- A naive datetime as integer microseconds: ordinal day times 86400 seconds
plus the time of day, scaled to the microsecond resolution of datetime. -/
def timestampUS (y m d h mi s : Nat) : Int :=
  ((toordinal y m d * 86400 + h * 3600 + mi * 60 + s : Nat) : Int) * 1000000

/-- The date half of datetime.fromisoformat on the string f-joined in
_monitor_loop: exactly "YYYY-MM-DD" with a valid proleptic Gregorian date;
anything else raises ValueError, modelled as none. -/
def parseIsoDate (s : String) : Option (Nat × Nat × Nat) :=
  match s.toList with
  | [y1, y2, y3, y4, '-', m1, m2, '-', d1, d2] =>
    match parse4 y1 y2 y3 y4, parse2 m1 m2, parse2 d1 d2 with
    | some y, some m, some d =>
      if 1 ≤ y ∧ 1 ≤ m ∧ m ≤ 12 ∧ 1 ≤ d ∧ d ≤ daysInMonth y m then some (y, m, d)
      else none
    | _, _, _ => none
  | _ => none

/-- The time half of datetime.fromisoformat: "HH:MM" or "HH:MM:SS" with a
valid naive time of day; anything else raises ValueError, modelled as none. -/
def parseIsoTime (s : String) : Option (Nat × Nat × Nat) :=
  match s.toList with
  | [h1, h2, ':', m1, m2] =>
    match parse2 h1 h2, parse2 m1 m2 with
    | some h, some mi => if h ≤ 23 ∧ mi ≤ 59 then some (h, mi, 0) else none
    | _, _ => none
  | [h1, h2, ':', m1, m2, ':', s1, s2] =>
    match parse2 h1 h2, parse2 m1 m2, parse2 s1 s2 with
    | some h, some mi, some sec =>
      if h ≤ 23 ∧ mi ≤ 59 ∧ sec ≤ 59 then some (h, mi, sec) else none
    | _, _, _ => none
  | _ => none

/-- datetime.fromisoformat over the combined string built in _monitor_loop,
restricted to naive "YYYY-MM-DD" dates and "HH:MM" or "HH:MM:SS" times, as
integer microseconds; the ValueError cases are none. -/
def fromisoformatUS (date time : String) : Option Int :=
  match parseIsoDate date, parseIsoTime time with
  | some (y, m, d), some (h, mi, s) => some (timestampUS y m d h mi s)
  | _, _ => none

/-- The per-task decision of TaskManager._monitor_loop at wall-clock time now
in microseconds: skip done or already fired tasks, skip empty date or time,
skip on ValueError from parsing, otherwise fire exactly when the delta from
the reminder instant lies in the closed 30-second window. -/
def evalTask (now : Int) (t : Task) : Bool :=
  if t.done || t.reminder_fired then false
  else if t.date == "" || t.time == "" then false
  else
    match fromisoformatUS t.date t.time with
    | none => false
    | some ts =>
      let reminder_dt := ts - t.reminder * 60000000
      let delta := now - reminder_dt
      decide (0 ≤ delta ∧ delta ≤ 30000000)

/-- Effect of one _monitor_loop pass on a single task: a task that fires gets
its reminder_fired latch set by _fire_reminder, any other task is untouched. -/
def monitorStep (now : Int) (t : Task) : Task :=
  if evalTask now t then { t with reminder_fired := true } else t

/-- One full _monitor_loop pass over the task snapshot. -/
def monitorPass (now : Int) (tasks : List Task) : List Task :=
  tasks.map (monitorStep now)

/-- The externally visible effects of TaskManager._fire_reminder, in program
order. -/
inductive TEvent where
  | latchSet (taskId : String)
  | persistTasks
  | osNotify (title body : String)
  | reminderCallback (taskId : String)
deriving DecidableEq

/-- Title of the desktop notification sent by _fire_reminder. -/
def notifyTitle (task : Task) : String := "⏰ Reminder: " ++ task.title

/-- Body of the desktop notification sent by _fire_reminder. -/
def notifyBody (task : Task) : String :=
  "Starting in " ++ toString task.reminder ++ " min  •  " ++ task.time

/-- TaskManager._fire_reminder: under the lock set reminder_fired = true on
the stored task when present, then _persist, then dispatch the desktop
notification, then invoke the reminder callback; a callback exception
(cbRaises) is caught and discarded so it changes nothing. -/
def fireReminder (tasks : List Task) (task : Task) (cbRaises : Bool) :
    List Task × List TEvent :=
  let found := tasks.any (fun t => t.id == task.id)
  let tasks' := tasks.map (fun t => if t.id == task.id then { t with reminder_fired := true } else t)
  let latchEv := if found then [TEvent.latchSet task.id] else []
  (tasks',
   latchEv ++ [TEvent.persistTasks,
               TEvent.osNotify (notifyTitle task) (notifyBody task),
               TEvent.reminderCallback task.id])

/-- The latch write of _fire_reminder as it acts on one stored task. -/
def fireLatchStep (fired : Task) (t : Task) : Task :=
  if t.id == fired.id then { t with reminder_fired := true } else t

/-- The keyword arguments TaskManager.update can receive: a None value means
the field is left untouched, mirroring the if v is not None guard. -/
structure TaskUpdateKwargs where
  title : Option String := none
  date : Option String := none
  time : Option String := none
  reminder : Option Int := none
  done : Option Bool := none
  color : Option String := none
  reminder_fired : Option Bool := none

/-- The setattr loop of TaskManager.update applied to one stored task. -/
def applyUpdate (u : TaskUpdateKwargs) (t : Task) : Task :=
  { t with
    title := u.title.getD t.title
    date := u.date.getD t.date
    time := u.time.getD t.time
    reminder := u.reminder.getD t.reminder
    done := u.done.getD t.done
    color := u.color.getD t.color
    reminder_fired := u.reminder_fired.getD t.reminder_fired }

/-- A file system as a map from path to file content, for storage._write. -/
abbrev FileSys (γ : Type) := String → Option γ

/-- Creating or truncating and writing one file. -/
def fsSet {γ : Type} (fs : FileSys γ) (p : String) (c : γ) : FileSys γ :=
  fun q => if q = p then some c else fs q

/-- Removing one file. -/
def fsDel {γ : Type} (fs : FileSys γ) (p : String) : FileSys γ :=
  fun q => if q = p then none else fs q

/-- os.replace: atomically rename src over dst in one indivisible step. -/
def osReplace {γ : Type} (fs : FileSys γ) (src dst : String) : FileSys γ :=
  match fs src with
  | some c => fsDel (fsSet fs dst c) src
  | none => fs

/-- storage._write: serialize the whole document to the sibling path
path + ".tmp", then os.replace the temporary file over the target. -/
def atomicWrite {γ : Type} (fs : FileSys γ) (path : String) (data : γ) : FileSys γ :=
  osReplace (fsSet fs (path ++ ".tmp") data) (path ++ ".tmp") path

/-- Crash points of storage._write: before anything was written, in the
middle of writing the temporary file (which then holds arbitrary junk), after
the temporary file is complete but before the rename, and after the rename. -/
inductive WriteCrash (γ : Type) where
  | beforeTmpWrite
  | duringTmpWrite (junk : γ)
  | afterTmpWrite
  | completed

/-- The file system observed after a crash of storage._write at the given
point. -/
def crashedWrite {γ : Type} (fs : FileSys γ) (path : String) (data : γ) :
    WriteCrash γ → FileSys γ
  | .beforeTmpWrite => fs
  | .duringTmpWrite junk => fsSet fs (path ++ ".tmp") junk
  | .afterTmpWrite => fsSet fs (path ++ ".tmp") data
  | .completed => atomicWrite fs path data

/-- Folding Python dict insertion over rows with pairwise fresh keys appends
the rows in order. -/
theorem foldl_dictInsert_fresh {α β : Type} (key : α → String) (f : α → β) :
    ∀ (rows : List α) (acc : List (String × β)),
      (∀ a ∈ rows, ∀ p ∈ acc, p.1 ≠ key a) → (rows.map key).Nodup →
      rows.foldl (fun d a => dictInsert d (key a) (f a)) acc
        = acc ++ rows.map (fun a => (key a, f a)) := by
  intro rows
  induction rows with
  | nil => intro acc _ _; simp
  | cons a rows ih =>
    intro acc hfresh hnd
    have hany : (acc.any (fun p => p.1 == key a)) = false := by
      rw [List.any_eq_false]
      intro p hp
      simpa using hfresh a (by simp) p hp
    have hstep : dictInsert acc (key a) (f a) = acc ++ [(key a, f a)] := by
      simp [dictInsert, hany]
    have hnotin : key a ∉ rows.map key := by
      have h := hnd
      simp only [List.map_cons, List.nodup_cons] at h
      exact h.1
    have hnd' : (rows.map key).Nodup := by
      have h := hnd
      simp only [List.map_cons, List.nodup_cons] at h
      exact h.2
    have hfresh' : ∀ b ∈ rows, ∀ p ∈ acc ++ [(key a, f a)], p.1 ≠ key b := by
      intro b hb p hp
      rcases List.mem_append.mp hp with hp | hp
      · exact hfresh b (List.mem_cons_of_mem _ hb) p hp
      · have hpa : p = (key a, f a) := by simpa using hp
        subst hpa
        intro hcontra
        have hcontra' : key a = key b := hcontra
        rw [hcontra'] at hnotin
        exact hnotin (List.mem_map_of_mem key hb)
    rw [List.foldl_cons, hstep, ih (acc ++ [(key a, f a)]) hfresh' hnd']
    simp

/-- With pairwise distinct ids, AlarmManager._load keeps every row in order
and only resets its ringing field. -/
theorem loadAlarmRows_eq (rows : List Alarm) (h : (rows.map Alarm.id).Nodup) :
    loadAlarmRows rows = rows.map (fun a => { a with ringing := false }) := by
  have h1 := foldl_dictInsert_fresh (fun a : Alarm => a.id)
    (fun a : Alarm => { a with ringing := false }) rows []
    (by intro a _ p hp; simp at hp) (by simpa using h)
  unfold loadAlarmRows pyDictFromRows
  beta_reduce
  rw [h1]
  simp only [List.nil_append, List.map_map]
  have h2 : (Prod.snd ∘ fun a : Alarm => (a.id, { a with ringing := false }))
      = (fun a : Alarm => { a with ringing := false }) := rfl
  rw [h2]

/-- With pairwise distinct ids, TaskManager._load keeps every row unchanged
and in order. -/
theorem loadTaskRows_eq (rows : List Task) (h : (rows.map Task.id).Nodup) :
    loadTaskRows rows = rows := by
  have h1 := foldl_dictInsert_fresh (fun t : Task => t.id) (fun t : Task => t) rows []
    (by intro a _ p hp; simp at hp) (by simpa using h)
  unfold loadTaskRows pyDictFromRows
  beta_reduce
  rw [h1]
  simp only [List.nil_append, List.map_map]
  have h2 : (Prod.snd ∘ fun t : Task => (t.id, t)) = id := rfl
  rw [h2, List.map_id]

/-- Every entry of the dict built by the _load loop comes from acc or is the
transform of one of the rows. -/
theorem mem_foldl_dictInsert {α β : Type} (key : α → String) (f : α → β) :
    ∀ (rows : List α) (acc : List (String × β)) (p : String × β),
      p ∈ rows.foldl (fun d a => dictInsert d (key a) (f a)) acc →
      p ∈ acc ∨ ∃ r ∈ rows, p.2 = f r := by
  intro rows
  induction rows with
  | nil => intro acc p hp; exact Or.inl (by simpa using hp)
  | cons a rows ih =>
    intro acc p hp
    rw [List.foldl_cons] at hp
    rcases ih (dictInsert acc (key a) (f a)) p hp with hmem | ⟨r, hr, hpr⟩
    · unfold dictInsert at hmem
      by_cases hany : (acc.any (fun q => q.1 == key a)) = true
      · rw [if_pos hany] at hmem
        rcases List.mem_map.mp hmem with ⟨q, hq, hqp⟩
        by_cases hqk : (q.1 == key a) = true
        · simp only [hqk, if_true] at hqp
          exact Or.inr ⟨a, by simp, by rw [← hqp]⟩
        · simp only [hqk] at hqp
          simp only [Bool.false_eq_true, if_false] at hqp
          exact Or.inl (hqp ▸ hq)
      · rw [if_neg hany] at hmem
        rcases List.mem_append.mp hmem with hp2 | hp2
        · exact Or.inl hp2
        · have hpa : p = (key a, f a) := by simpa using hp2
          exact Or.inr ⟨a, by simp, by rw [hpa]⟩
    · exact Or.inr ⟨r, List.mem_cons_of_mem _ hr, hpr⟩

/-- Every alarm produced by AlarmManager._load carries ringing = false. -/
theorem loadAlarmRows_ringing_false (rows : List Alarm) (a : Alarm)
    (ha : a ∈ loadAlarmRows rows) : a.ringing = false := by
  unfold loadAlarmRows pyDictFromRows at ha
  rcases List.mem_map.mp ha with ⟨p, hp, hpa⟩
  rcases mem_foldl_dictInsert (fun x => x.id) (fun x => { x with ringing := false })
      rows [] p hp with h | ⟨r, _, h2⟩
  · simp at h
  · rw [← hpa, h2]

/-- Sample alarm as stored and persisted by the scheduler, ringing. -/
def A1 : Alarm :=
  { id := "a1", time := "07:00", label := "wake", sound := "Classic Beep",
    repeatDays := [], active := true, ringing := true }

/-- Sample alarm before any fire, not ringing. -/
def A1nr : Alarm :=
  { id := "a1", time := "07:00", label := "wake", sound := "Classic Beep",
    repeatDays := [], active := true, ringing := false }

/-- The alarm A1 as the loader rebuilds it. -/
def A1r : Alarm :=
  { id := "a1", time := "07:00", label := "wake", sound := "Classic Beep",
    repeatDays := [], active := true, ringing := false }

/-- Sample alarm manager state with one idle alarm, already persisted. -/
def S1 : AMState := { alarms := [A1nr], file := [A1nr], writes := 0 }

/-- Sample task with its reminder latch already set. -/
def T1 : Task :=
  { id := "t1", title := "standup", date := "2024-01-01", time := "10:00",
    reminder := 10, done := false, color := "#6366f1", reminder_fired := true }

/-- C1 counterexample: firing the alarm a1 (the _fire path of the scheduler)
persists the collection while the alarm is ringing, so the record written to
disk carries ringing = true, contradicting that the persistence step never
writes ringing = true. -/
theorem C1_counterexample :
    ((fireAlarm S1 "a1").file.map Alarm.ringing) = [true] := by rfl

/-- C1 (amended): every alarm loaded from disk has ringing = false regardless
of the stored value, while the persistence step writes the in-memory records
verbatim, ringing field included. -/
theorem C1_load_resets_ringing (rows : List Alarm) (s : AMState) (a : Alarm)
    (ha : a ∈ loadAlarmRows rows) :
    a.ringing = false ∧ (persistAlarms s).file = s.alarms :=
  ⟨loadAlarmRows_ringing_false rows a ha, rfl⟩

/-- C1 witness: the loader output for a file holding a ringing alarm record
is the same alarm with ringing reset. -/
theorem C1_witness : A1r.ringing = false ∧ (persistAlarms S1).file = S1.alarms :=
  C1_load_resets_ringing [A1] S1 A1r (by decide)

/-- C2: saving a collection and loading it back yields the same records in
order, except that every alarm record has its ringing field reset to false by
the loader; task records come back unchanged.  The ids of a manager-owned
collection are pairwise distinct since the manager keys its dict by id. -/
theorem C2_roundtrip (alarms : List Alarm) (tasks : List Task)
    (ha : (alarms.map Alarm.id).Nodup) (ht : (tasks.map Task.id).Nodup) :
    loadAlarmRows (load_alarms (save_alarms alarms))
      = alarms.map (fun a => { a with ringing := false }) ∧
    loadTaskRows (load_tasks (save_tasks tasks)) = tasks := by
  have h1 : load_alarms (save_alarms alarms) = alarms := rfl
  have h2 : load_tasks (save_tasks tasks) = tasks := rfl
  rw [h1, h2]
  exact ⟨loadAlarmRows_eq alarms ha, loadTaskRows_eq tasks ht⟩

/-- C2 witness: round trip of a one-alarm and a one-task collection. -/
theorem C2_witness :
    loadAlarmRows (load_alarms (save_alarms [A1])) = [A1r] ∧
    loadTaskRows (load_tasks (save_tasks [T1])) = [T1] := by
  have h := C2_roundtrip [A1] [T1] (by decide) (by decide)
  simpa using h

/-- C8: loading a collection whose backing file is missing, or whose content
is not valid JSON, yields the empty list: _read swallows both cases into the
empty object and the loaders default the missing array field to []. -/
theorem C8_missing_or_corrupt_loads_empty :
    load_alarms StoredFile.absent = [] ∧ load_alarms StoredFile.corrupt = [] ∧
    load_tasks StoredFile.absent = [] ∧ load_tasks StoredFile.corrupt = [] :=
  ⟨rfl, rfl, rfl, rfl⟩

/-- A nonempty date is forced by a successful parse. -/
theorem fromisoformatUS_date_ne_empty (date time : String) (ts : Int)
    (hparse : fromisoformatUS date time = some ts) : date ≠ "" := by
  intro h
  rw [h] at hparse
  have hnone : fromisoformatUS "" time = none := by
    unfold fromisoformatUS
    have h0 : parseIsoDate "" = none := rfl
    rw [h0]
  rw [hnone] at hparse
  cases hparse

/-- A nonempty time is forced by a successful parse. -/
theorem fromisoformatUS_time_ne_empty (date time : String) (ts : Int)
    (hparse : fromisoformatUS date time = some ts) : time ≠ "" := by
  intro h
  rw [h] at hparse
  have hnone : fromisoformatUS date "" = none := by
    unfold fromisoformatUS
    have h0 : parseIsoTime "" = none := rfl
    rw [h0]
    cases parseIsoDate date <;> rfl
  rw [hnone] at hparse
  cases hparse

/-- C3: for a task that is not done, not already reminder-fired, and whose
date and time parse (hence are nonempty), one _monitor_loop pass at
wall-clock time now fires the reminder exactly when the delta from the
reminder instant, in microseconds, lies between 0 and 30 seconds inclusive;
so delta 0 and delta 30 s fire, delta 30.01 s or -0.01 s do not. -/
theorem C3_reminder_window (t : Task) (now ts : Int)
    (hdone : t.done = false) (hfired : t.reminder_fired = false)
    (hparse : fromisoformatUS t.date t.time = some ts) :
    evalTask now t = true ↔
      0 ≤ now - (ts - t.reminder * 60000000) ∧
      now - (ts - t.reminder * 60000000) ≤ 30000000 := by
  have hdate : (t.date == "") = false :=
    beq_eq_false_iff_ne.mpr (fromisoformatUS_date_ne_empty t.date t.time ts hparse)
  have htime : (t.time == "") = false :=
    beq_eq_false_iff_ne.mpr (fromisoformatUS_time_ne_empty t.date t.time ts hparse)
  simp [evalTask, hdone, hfired, hdate, htime, hparse]

/-- Sample eligible task: due 2024-01-01 10:00 with a 10-minute reminder. -/
def T3 : Task :=
  { id := "t3", title := "demo", date := "2024-01-01", time := "10:00",
    reminder := 10, done := false, color := "#6366f1", reminder_fired := false }

/-- C3 witness: at delta 0 the sample task fires, at delta 30 s it fires, at
delta 30.01 s and at delta -0.01 s it does not. -/
theorem C3_witness :
    evalTask (timestampUS 2024 1 1 10 0 0 - 600000000) T3 = true ∧
    evalTask (timestampUS 2024 1 1 10 0 0 - 600000000 + 30000000) T3 = true ∧
    evalTask (timestampUS 2024 1 1 10 0 0 - 600000000 + 30010000) T3 = false ∧
    evalTask (timestampUS 2024 1 1 10 0 0 - 600000000 - 10000) T3 = false := by
  refine ⟨?_, ?_, ?_, ?_⟩
  · exact (C3_reminder_window T3 (timestampUS 2024 1 1 10 0 0 - 600000000)
      (timestampUS 2024 1 1 10 0 0) rfl rfl (by decide)).mpr (by decide)
  · exact (C3_reminder_window T3 (timestampUS 2024 1 1 10 0 0 - 600000000 + 30000000)
      (timestampUS 2024 1 1 10 0 0) rfl rfl (by decide)).mpr (by decide)
  · decide
  · decide

/-- C10: a task whose nonempty date and time do not parse as an ISO calendar
date and time of day is skipped silently by the evaluation pass: the
ValueError raised by fromisoformat is caught by the loop, the task never
fires (so no notification is dispatched for it) and it is left unchanged. -/
theorem C10_malformed_skipped (now : Int) (t : Task)
    (hd : t.date ≠ "") (ht : t.time ≠ "")
    (hparse : fromisoformatUS t.date t.time = none) :
    evalTask now t = false ∧ monitorStep now t = t := by
  have h1 : evalTask now t = false := by
    unfold evalTask
    by_cases h1 : (t.done || t.reminder_fired) = true
    · rw [if_pos h1]
    · rw [if_neg h1]
      by_cases h2 : (t.date == "" || t.time == "") = true
      · rw [if_pos h2]
      · rw [if_neg h2]
        rw [hparse]
  refine ⟨h1, ?_⟩
  unfold monitorStep
  rw [h1]
  simp

/-- Sample task whose date has month 13, so fromisoformat raises. -/
def T10 : Task :=
  { id := "t10", title := "broken", date := "2024-13-05", time := "10:00",
    reminder := 10, done := false, color := "#6366f1", reminder_fired := false }

/-- C10 witness: the month-13 task is skipped and untouched. -/
theorem C10_witness : evalTask 0 T10 = false ∧ monitorStep 0 T10 = T10 :=
  C10_malformed_skipped 0 T10 (by decide) (by decide) (by decide)

/-- C4: on an evaluation tick of _tick_loop at the sampled wall clock, an
alarm fires (tickOnce then sets its ringing field to true) exactly when the
sampled second is 0, the alarm is active and not already ringing, its time
string equals the current "HH:MM", and its repeat set is empty or holds the
current weekday tag. -/
theorem C4_tick_fire_iff (c : Clock) (a : Alarm) :
    alarmFireCond c a = true ↔
      c.second = 0 ∧ a.active = true ∧ a.ringing = false ∧
      a.time = timeStr c.hour c.minute ∧
      (a.repeatDays = [] ∨ weekdayName c.weekday ∈ a.repeatDays) := by
  unfold alarmFireCond
  by_cases h1 : c.second = 0
  · rw [if_pos h1]
    by_cases h2 : a.active = false ∨ a.ringing = true
    · rw [if_pos h2]
      simp only [Bool.false_eq_true, false_iff]
      rintro ⟨-, hact, hring, -, -⟩
      rcases h2 with h2 | h2
      · rw [hact] at h2; cases h2
      · rw [hring] at h2; cases h2
    · rw [if_neg h2]
      rcases not_or.mp h2 with ⟨hact, hring⟩
      have hact' : a.active = true := by
        cases hb : a.active
        · exact absurd hb hact
        · rfl
      have hring' : a.ringing = false := by
        cases hb : a.ringing
        · rfl
        · exact absurd hb hring
      by_cases h3 : ¬ a.time = timeStr c.hour c.minute
      · rw [if_pos h3]
        simp only [Bool.false_eq_true, false_iff]
        rintro ⟨-, -, -, htime, -⟩
        exact h3 htime
      · rw [if_neg h3]
        by_cases h4 : ¬ a.repeatDays = [] ∧ ¬ weekdayName c.weekday ∈ a.repeatDays
        · rw [if_pos h4]
          simp only [Bool.false_eq_true, false_iff]
          rintro ⟨-, -, -, -, hrep⟩
          rcases hrep with hrep | hrep
          · exact h4.1 hrep
          · exact h4.2 hrep
        · rw [if_neg h4]
          constructor
          · intro hne
            refine ⟨h1, hact', hring', not_not.mp h3, ?_⟩
            by_cases hemp : a.repeatDays = []
            · exact Or.inl hemp
            · rcases not_and_or.mp h4 with h | h
              · exact absurd (not_not.mp h) hemp
              · exact Or.inr (not_not.mp h)
          · intro hne
            rfl
  · rw [if_neg h1]
    simp only [Bool.false_eq_true, false_iff]
    rintro ⟨hs, -⟩
    exact h1 hs

/-- C5: the effect trace of one _fire_reminder call for a stored task is, in
strict program order, the latch write, the persistence call, the desktop
notification, and the callback invocation, for either value of the discarded
callback-exception flag; the latch write precedes the notification. -/
theorem C5_fire_order (tasks : List Task) (task : Task) (cbRaises : Bool)
    (h : task.id ∈ tasks.map Task.id) :
    (fireReminder tasks task cbRaises).2 =
      [TEvent.latchSet task.id, TEvent.persistTasks,
       TEvent.osNotify (notifyTitle task) (notifyBody task),
       TEvent.reminderCallback task.id] := by
  have hfound : (tasks.any (fun t => t.id == task.id)) = true := by
    rw [List.any_eq_true]
    rcases List.mem_map.mp h with ⟨t, ht, hid⟩
    exact ⟨t, ht, by simp [hid]⟩
  simp [fireReminder, hfound]

/-- Sample fireable task for the C5 witness. -/
def T5 : Task :=
  { id := "t5", title := "standup", date := "2024-01-01", time := "10:00",
    reminder := 10, done := false, color := "#6366f1", reminder_fired := false }

/-- C5 witness: the trace for a concrete stored task, with a raising
callback. -/
theorem C5_witness :
    (fireReminder [T5] T5 true).2 =
      [TEvent.latchSet "t5", TEvent.persistTasks,
       TEvent.osNotify (notifyTitle T5) (notifyBody T5),
       TEvent.reminderCallback "t5"] := by
  have h := C5_fire_order [T5] T5 true (by decide)
  rw [h]
  exact rfl

/-- C6: once reminder_fired is true on a task, the per-task effect of an
evaluation pass, of a _fire_reminder latch write, and of an update call that
does not explicitly clear the latch all keep it true, and a persist-reload
cycle returns the collection unchanged (reminder_fired included): the
evaluator never re-arms a fired reminder. -/
theorem C6_latch_monotone (now : Int) (t fired : Task) (u : TaskUpdateKwargs)
    (ts : List Task) (hf : t.reminder_fired = true)
    (hu : u.reminder_fired ≠ some false) (hnd : (ts.map Task.id).Nodup) :
    (monitorStep now t).reminder_fired = true ∧
    (fireLatchStep fired t).reminder_fired = true ∧
    (applyUpdate u t).reminder_fired = true ∧
    loadTaskRows (load_tasks (save_tasks ts)) = ts := by
  refine ⟨?_, ?_, ?_, ?_⟩
  · unfold monitorStep
    split <;> simp [hf]
  · unfold fireLatchStep
    split <;> simp [hf]
  · unfold applyUpdate
    cases hrf : u.reminder_fired with
    | none => simp [hrf, hf]
    | some b =>
      cases b with
      | false => exact absurd hrf hu
      | true => simp [hrf]
  · have h2 : load_tasks (save_tasks ts) = ts := rfl
    rw [h2]
    exact loadTaskRows_eq ts hnd

/-- C6 witness: a fired task stays fired under an evaluation step, a latch
write, and an update carrying no field values; a singleton collection
round-trips unchanged. -/
theorem C6_witness :
    (monitorStep 0 T1).reminder_fired = true ∧
    (fireLatchStep T1 T1).reminder_fired = true ∧
    (applyUpdate {} T1).reminder_fired = true ∧
    loadTaskRows (load_tasks (save_tasks [T1])) = [T1] :=
  C6_latch_monotone 0 T1 T1 {} [T1] rfl (by decide) (by decide)

/-- C7: deleting an alarm id that is absent from the collection returns the
not-found signal False and leaves the whole manager state untouched: the
in-memory collection, the persisted file, and the persistence-write counter
are unchanged, so no persistence write happens on the not-found path. -/
theorem C7_delete_absent (s : AMState) (alarm_id : String)
    (h : ∀ a ∈ s.alarms, a.id ≠ alarm_id) :
    deleteAlarm s alarm_id = (false, s) := by
  have hany : (s.alarms.any (fun a => a.id == alarm_id)) = false := by
    rw [List.any_eq_false]
    intro a ha
    simpa using h a ha
  unfold deleteAlarm
  rw [hany]
  rfl

/-- C7 witness: deleting the unknown id zz from the one-alarm state. -/
theorem C7_witness : deleteAlarm S1 "zz" = (false, S1) :=
  C7_delete_absent S1 "zz" (by decide)

/-- C9: whatever the crash point of storage._write, the target path holds
either its complete previous content or the complete new data, never a
partial blend, and it is never removed: the temporary sibling path differs
from the target, so an interrupted temporary write cannot touch the target,
and os.replace installs the new content in one atomic step. -/
theorem C9_atomic_replace (γ : Type) (fs : FileSys γ) (path : String)
    (data : γ) (c : WriteCrash γ) :
    crashedWrite fs path data c path = fs path ∨
    crashedWrite fs path data c path = some data := by
  have hlen : (".tmp" : String).length = 4 := rfl
  have htmp : ¬ (path = path ++ ".tmp") := by
    intro h
    have hc := congrArg String.length h
    rw [String.length_append, hlen] at hc
    omega
  cases c with
  | beforeTmpWrite => exact Or.inl rfl
  | duringTmpWrite junk =>
    left
    simp [crashedWrite, fsSet, htmp]
  | afterTmpWrite =>
    left
    simp [crashedWrite, fsSet, htmp]
  | completed =>
    right
    simp [crashedWrite, atomicWrite, osReplace, fsSet, fsDel, htmp]

end Chronos
